import Mathlib

/-!
Shallow embedding of the bitcoin-tracker price and candle aggregation engine.

The embedding covers:
* `src/services/ecbApi.js` — the cross-rate resolver (`getExchangeRate`,
  `_getEurToCurrencyRate`, `_getEurToCurrencyRateFallback`, `getLatestRate`);
* `src/services/coinbaseApi.js` — the candle window builder and spot price
  resolver (`getBtcCandles`, `aggregateCandles`, `convertCandlesFromUsd`,
  `getBtcCandlesForTimeWindow`, `getBtcSpotPrice`);
* the `fetchMarketData` closure of `App.jsx` — the TTL market-data cache with
  stale-serve-on-error.

Modelling conventions:
* JavaScript numbers are rationals (`Rat`).  Where the IEEE special values
  Infinity/NaN are themselves the subject of a claim, a four-point domain
  `JsNum` (finite, Infinity, -Infinity, NaN) with JavaScript division
  semantics is used instead; negative zero is not modelled.
* Dates are integers (milliseconds since the epoch, as `Date.getTime()`).
  The `formatDate` helpers of the source render a date as `YYYY-MM-DD`;
  period boundaries are kept as the underlying integers, and calendar-day
  arithmetic (`setDate(getDate() - n)`) is modelled as subtracting
  `n * dayMs` milliseconds.
* Every network access is mediated by an oracle (a function from request to
  response), and every embedded operation returns, next to its result, the
  list of requests it issued, in issue order.  JavaScript exceptions are
  `Except` errors; an `await` of a throwing call short-circuits.
-/

/-! JavaScript number domain for claims about Infinity/NaN -/

/-- JavaScript number with its IEEE special values: a finite rational,
positive or negative Infinity, or NaN.  Negative zero is not modelled. -/
inductive JsNum where
  | fin (q : ℚ)
  | inf
  | negInf
  | nan
deriving DecidableEq, Repr

/-- JavaScript division.  Only the finite/finite case is exercised by the
embedding; division of a nonzero finite number by zero yields a signed
Infinity and `0 / 0` yields NaN, as in JavaScript (with `0` standing for
positive zero). -/
def jsDiv (a b : JsNum) : JsNum :=
  match a, b with
  | .fin x, .fin y =>
    if y = 0 then (if x = 0 then .nan else if x > 0 then .inf else .negInf)
    else .fin (x / y)
  | .nan, _ => .nan
  | _, .nan => .nan
  | .inf, .inf => .nan
  | .inf, .negInf => .nan
  | .negInf, .inf => .nan
  | .negInf, .negInf => .nan
  | .inf, .fin y => if y < 0 then .negInf else .inf
  | .negInf, .fin y => if y < 0 then .inf else .negInf
  | .fin _, .inf => .fin 0
  | .fin _, .negInf => .fin 0

/-- The JavaScript `toUpperCase()` call, character by character; it agrees
with the source's use on ASCII currency codes. -/
def jsToUpper (s : String) : String := ⟨s.data.map Char.toUpper⟩

/-- The JavaScript `toLowerCase()` call, character by character. -/
def jsToLower (s : String) : String := ⟨s.data.map Char.toLower⟩

/-! ECB cross-rate resolver (`src/services/ecbApi.js`) -/

/-- One day in milliseconds; `24 * 60 * 60 * 1000`. -/
def dayMs : Int := 86400000

/-- One request to the ECB data API: the series currency (the pivot EUR is
fixed in the series key `D.{currency}.EUR.SP00.A`) and the requested
`startPeriod` / `endPeriod`. -/
structure FetchReq where
  currency : String
  startP : Int
  endP : Int
deriving DecidableEq, Repr

/-- The response shapes `_getEurToCurrencyRate` distinguishes: a non-OK HTTP
response, an empty body, a body that is not valid JSON, a JSON body without
`dataSets`, a data set without `series`, or a series with its (period-index
keyed) observations. -/
inductive FxResponse where
  | httpError
  | emptyBody
  | invalidJson
  | noDataSets
  | noSeries
  | observations (obs : List (Nat × ℚ))
deriving DecidableEq, Repr

/-- The FX source, as an oracle from request to response. -/
def FxOracle : Type := FetchReq → FxResponse

/-- The distinct `Error`s thrown by the ECB service, one constructor per
`throw` site. -/
inductive EcbError where
  | httpFail
  | invalidJson
  | fbHttpFail
  | fbEmptyResponse
  | fbInvalidJson
  | fbInvalidFormat
  | fbNoSeries
  | fbNoObservations
deriving DecidableEq, Repr

/-- Insert a keyed observation into a list sorted by ascending key. -/
def insertByKey (p : Nat × ℚ) : List (Nat × ℚ) → List (Nat × ℚ)
  | [] => [p]
  | q :: qs => if p.1 ≤ q.1 then p :: q :: qs else q :: insertByKey p qs

/-- Sort observations by ascending numeric period key, as
`observationKeys.sort((a, b) => parseInt(a) - parseInt(b))` does. -/
def sortByKey : List (Nat × ℚ) → List (Nat × ℚ)
  | [] => []
  | p :: ps => insertByKey p (sortByKey ps)

/-- The most recent observation: the value at the last key after the numeric
sort (`observations[observationKeys[observationKeys.length - 1]][0]`).
`none` when there are no observations. -/
def latestObservation (obs : List (Nat × ℚ)) : Option ℚ :=
  ((sortByKey obs).getLast?).map (fun p => p.2)

/-- The source's `_getEurToCurrencyRateFallback`: one request for the last 90
days (the `setDate(getDate() - 90)` calendar arithmetic modelled as
`today - 90 * dayMs`); every no-data shape now throws instead of retrying. -/
def getEurToCurrencyRateFallback (o : FxOracle) (today : Int) (currency : String) :
    Except EcbError ℚ × List FetchReq :=
  let req : FetchReq := ⟨currency, today - 90 * dayMs, today⟩
  match o req with
  | .httpError => (.error .fbHttpFail, [req])
  | .emptyBody => (.error .fbEmptyResponse, [req])
  | .invalidJson => (.error .fbInvalidJson, [req])
  | .noDataSets => (.error .fbInvalidFormat, [req])
  | .noSeries => (.error .fbNoSeries, [req])
  | .observations obs =>
    match latestObservation obs with
    | none => (.error .fbNoObservations, [req])
    | some v => (.ok v, [req])

/-- The source's `_getEurToCurrencyRate`: one request for the given period;
an empty body, a missing `dataSets`, a missing `series`, or zero
observations fall back (once) to `_getEurToCurrencyRateFallback`; a non-OK
HTTP response and invalid JSON throw without any fallback. -/
def getEurToCurrencyRate (o : FxOracle) (today : Int) (currency : String)
    (startPeriod endPeriod : Int) : Except EcbError ℚ × List FetchReq :=
  let req : FetchReq := ⟨currency, startPeriod, endPeriod⟩
  match o req with
  | .httpError => (.error .httpFail, [req])
  | .invalidJson => (.error .invalidJson, [req])
  | .emptyBody =>
    let fb := getEurToCurrencyRateFallback o today currency
    (fb.1, req :: fb.2)
  | .noDataSets =>
    let fb := getEurToCurrencyRateFallback o today currency
    (fb.1, req :: fb.2)
  | .noSeries =>
    let fb := getEurToCurrencyRateFallback o today currency
    (fb.1, req :: fb.2)
  | .observations obs =>
    match latestObservation obs with
    | none =>
      let fb := getEurToCurrencyRateFallback o today currency
      (fb.1, req :: fb.2)
    | some v => (.ok v, [req])

/-- The object returned by `getExchangeRate`:
`{ rate, date, baseCurrency, targetCurrency }`. -/
structure RateResult where
  rate : ℚ
  date : Int
  baseCurrency : String
  targetCurrency : String
deriving DecidableEq, Repr

/-- The source's `getExchangeRate(baseCurrency, targetCurrency, startDate,
endDate)`.  Missing dates default to the last 30 days.  Both currencies EUR
answers `1.0` with no request; base EUR takes the pivot rate directly;
target EUR inverts it; otherwise the two pivot rates are fetched (base
first) and divided.  Division is rational here; `getExchangeRateJs` below
carries the IEEE special values of the same computation. -/
def getExchangeRate (o : FxOracle) (today : Int) (baseCurrency targetCurrency : String)
    (startDate endDate : Option Int) : Except EcbError RateResult × List FetchReq :=
  let startD := startDate.getD (today - 30 * dayMs)
  let endD := endDate.getD today
  let baseUpper := jsToUpper baseCurrency
  let targetUpper := jsToUpper targetCurrency
  if baseUpper = "EUR" ∧ targetUpper = "EUR" then
    (.ok ⟨1, endD, baseUpper, targetUpper⟩, [])
  else if baseUpper = "EUR" then
    match getEurToCurrencyRate o today targetUpper startD endD with
    | (.error e, tr) => (.error e, tr)
    | (.ok r, tr) => (.ok ⟨r, endD, baseUpper, targetUpper⟩, tr)
  else if targetUpper = "EUR" then
    match getEurToCurrencyRate o today baseUpper startD endD with
    | (.error e, tr) => (.error e, tr)
    | (.ok eurToBase, tr) => (.ok ⟨1 / eurToBase, endD, baseUpper, targetUpper⟩, tr)
  else
    match getEurToCurrencyRate o today baseUpper startD endD with
    | (.error e, tr) => (.error e, tr)
    | (.ok eurToBase, trB) =>
      match getEurToCurrencyRate o today targetUpper startD endD with
      | (.error e, trT) => (.error e, trB ++ trT)
      | (.ok eurToTarget, trT) =>
        (.ok ⟨eurToTarget / eurToBase, endD, baseUpper, targetUpper⟩, trB ++ trT)

/-- The `getExchangeRate` result with the rate kept in the JavaScript number
domain `JsNum`, so that the division-by-zero behaviour of the source (which
silently produces Infinity/NaN) is visible. -/
structure RateResultJs where
  rate : JsNum
  date : Int
  baseCurrency : String
  targetCurrency : String
deriving DecidableEq, Repr

/-- The same `getExchangeRate` computation with JavaScript division: the
fetched pivot rates are finite rationals and every division goes through
`jsDiv`, exposing the Infinity/NaN results the source can produce. -/
def getExchangeRateJs (o : FxOracle) (today : Int) (baseCurrency targetCurrency : String)
    (startDate endDate : Option Int) : Except EcbError RateResultJs × List FetchReq :=
  let startD := startDate.getD (today - 30 * dayMs)
  let endD := endDate.getD today
  let baseUpper := jsToUpper baseCurrency
  let targetUpper := jsToUpper targetCurrency
  if baseUpper = "EUR" ∧ targetUpper = "EUR" then
    (.ok ⟨.fin 1, endD, baseUpper, targetUpper⟩, [])
  else if baseUpper = "EUR" then
    match getEurToCurrencyRate o today targetUpper startD endD with
    | (.error e, tr) => (.error e, tr)
    | (.ok r, tr) => (.ok ⟨.fin r, endD, baseUpper, targetUpper⟩, tr)
  else if targetUpper = "EUR" then
    match getEurToCurrencyRate o today baseUpper startD endD with
    | (.error e, tr) => (.error e, tr)
    | (.ok eurToBase, tr) =>
      (.ok ⟨jsDiv (.fin 1) (.fin eurToBase), endD, baseUpper, targetUpper⟩, tr)
  else
    match getEurToCurrencyRate o today baseUpper startD endD with
    | (.error e, tr) => (.error e, tr)
    | (.ok eurToBase, trB) =>
      match getEurToCurrencyRate o today targetUpper startD endD with
      | (.error e, trT) => (.error e, trB ++ trT)
      | (.ok eurToTarget, trT) =>
        (.ok ⟨jsDiv (.fin eurToTarget) (.fin eurToBase), endD, baseUpper, targetUpper⟩,
          trB ++ trT)

/-- The source's `getLatestRate`: `getExchangeRate` with no dates (so the
30-day default range applies), projected to the rate. -/
def getLatestRate (o : FxOracle) (today : Int) (baseCurrency targetCurrency : String) :
    Except EcbError ℚ × List FetchReq :=
  match getExchangeRate o today baseCurrency targetCurrency none none with
  | (.error e, tr) => (.error e, tr)
  | (.ok res, tr) => (.ok res.rate, tr)


/-! Coinbase candle window builder (`src/services/coinbaseApi.js`) -/

/-- A candle object as built by `getBtcCandles`: `time` is a `Date`
(milliseconds); the prices and the volume are numbers.  The source's `open`
field is spelled `openP` because `open` is reserved in Lean. -/
structure Candle where
  time : Int
  low : ℚ
  high : ℚ
  openP : ℚ
  close : ℚ
  volume : ℚ
deriving DecidableEq, Repr

/-- One row of the exchange's candle response: either a well-formed 6-tuple
`(epochSeconds, low, high, open, close, volume)` or a malformed row (not an
array, or fewer than 6 elements), which the source drops. -/
inductive CbRow where
  | valid (t : Int) (low high openP closeP vol : ℚ)
  | malformed
deriving DecidableEq, Repr

/-- One request to the exchange's candle endpoint: the product id in the URL
path, the `granularity` parameter, and the optional `start`/`end` Unix-second
parameters (appended only when both dates are given). -/
structure CandleReq where
  product : String
  granularity : Int
  range : Option (Int × Int)
deriving DecidableEq, Repr

/-- The candle endpoint's response: a non-OK HTTP response, a body that is
not an array, or the rows (newest first). -/
inductive CbResponse where
  | httpError
  | notArray
  | rows (rows : List CbRow)
deriving DecidableEq, Repr

/-- The candle source, as an oracle from request to response. -/
def CbOracle : Type := CandleReq → CbResponse

/-- The `Error`s thrown by `getBtcCandles`. -/
inductive CbError where
  | nonUsdCurrency
  | httpFail
  | invalidFormat
deriving DecidableEq, Repr

/-- The row-to-candle pipeline of `getBtcCandles`: map each row to a candle
object (`time` is seconds times 1000), drop malformed rows, and reverse from
newest-first to oldest-first. -/
def parseRows (rows : List CbRow) : List Candle :=
  (rows.filterMap (fun row =>
    match row with
    | .valid t low high openP closeP vol => some ⟨t * 1000, low, high, openP, closeP, vol⟩
    | .malformed => none)).reverse

/-- The `start`/`end` URL parameters of a candle request: appended only when
both dates are present (`if (start && end)`), converted from milliseconds to
Unix seconds by `Math.floor(getTime() / 1000)`. -/
def msRange : Option Int → Option Int → Option (Int × Int)
  | some s, some e => some (s / 1000, e / 1000)
  | _, _ => none

/-- The source's `getBtcCandles(currency, granularity, start, end)`: any
currency other than USD (case-insensitively) is rejected before the URL is
even built, so no request is issued; otherwise one request for the product
`BTC-USD` goes out, with `start`/`end` converted from milliseconds to Unix
seconds and sent only when both are present. -/
def getBtcCandles (o : CbOracle) (currency : String) (granularity : Int)
    (start stop : Option Int) : Except CbError (List Candle) × List CandleReq :=
  if jsToUpper currency ≠ "USD" then (.error .nonUsdCurrency, [])
  else
    let req : CandleReq := ⟨"BTC-USD", granularity, msRange start stop⟩
    match o req with
    | .httpError => (.error .httpFail, [req])
    | .notArray => (.error .invalidFormat, [req])
    | .rows rows => (.ok (parseRows rows), [req])

/-- The last element of `d :: l`, i.e. `group[group.length - 1]` for the
nonempty group `d :: l`. -/
def lastOr (l : List Candle) (d : Candle) : Candle :=
  match l with
  | [] => d
  | c :: cs => lastOr cs c

/-- The merged candle a loop iteration of `aggregateCandles` builds from the
nonempty group `first :: rest`: the first candle's time and open, the last
candle's close, the fold of `Math.max` over the highs, the fold of
`Math.min` over the lows, and `reduce((sum, c) => sum + c.volume, 0)`. -/
def mergeGroup (first : Candle) (rest : List Candle) : Candle where
  time := first.time
  low := rest.foldl (fun acc c => min acc c.low) first.low
  high := rest.foldl (fun acc c => max acc c.high) first.high
  openP := first.openP
  close := (lastOr rest first).close
  volume := (first :: rest).foldl (fun acc c => acc + c.volume) 0

/-- The source's `aggregateCandles(candles, aggregationFactor)`: slice the
list into consecutive groups of `aggregationFactor` candles (the final group
may be shorter) and merge each group.  With a factor of `0` the source's
`for` loop never advances; that diverging case, which no caller reaches, is
mapped to `[]`. -/
def aggregateCandles (candles : List Candle) (aggregationFactor : ℕ) : List Candle :=
  match candles, aggregationFactor with
  | [], _ => []
  | _ :: _, 0 => []
  | c :: cs, k + 1 => mergeGroup c (cs.take k) :: aggregateCandles (cs.drop k) (k + 1)
termination_by candles.length
decreasing_by
  simp only [List.length_drop, List.length_cons]
  omega

/-- The per-candle scaling of `convertCandlesFromUsd`: the spread keeps
`time` and multiplies `open`, `high`, `low`, `close` and `volume` by the one
exchange rate. -/
def scaleCandle (rate : ℚ) (c : Candle) : Candle :=
  { c with
    openP := c.openP * rate
    high := c.high * rate
    low := c.low * rate
    close := c.close * rate
    volume := c.volume * rate }

/-- The `Error`s surfaced by `convertCandlesFromUsd`: an ECB error rethrown
by its `catch`, or its own throw when even the latest rate is unavailable. -/
inductive ConvError where
  | ecb (e : EcbError)
  | noRate
deriving DecidableEq, Repr

/-- The source's `convertCandlesFromUsd(usdCandles, targetCurrency,
startDate, endDate)`: empty input returns empty with no lookup; otherwise
one dated `getExchangeRate` call is made, and only when it RETURNS a falsy
rate (`!ecbData.rate`, i.e. exactly `0`; the NaN case has no rational
counterpart) is `getLatestRate` consulted once; when the dated call throws,
the `catch` rethrows without consulting the latest rate.  A usable rate
scales every candle by that single scalar. -/
def convertCandlesFromUsd (fxo : FxOracle) (today : Int) (usdCandles : List Candle)
    (targetCurrency : String) (startDate endDate : Int) :
    Except ConvError (List Candle) × List FetchReq :=
  if usdCandles = [] then (.ok [], [])
  else
    match getExchangeRate fxo today "USD" targetCurrency (some startDate) (some endDate) with
    | (.error e, tr) => (.error (.ecb e), tr)
    | (.ok ecbData, tr) =>
      if ecbData.rate = 0 then
        match getLatestRate fxo today "USD" targetCurrency with
        | (.error e, trL) => (.error (.ecb e), tr ++ trL)
        | (.ok latestRate, trL) =>
          if latestRate = 0 then (.error .noRate, tr ++ trL)
          else (.ok (usdCandles.map (scaleCandle latestRate)), tr ++ trL)
      else (.ok (usdCandles.map (scaleCandle ecbData.rate)), tr)

/-- The `Error`s surfaced by `getBtcCandlesForTimeWindow`: an upstream candle
failure, a conversion failure, or an unsupported window code. -/
inductive WindowError where
  | upstream (e : CbError)
  | conversion (e : ConvError)
  | unsupportedWindow (w : String)
deriving DecidableEq, Repr

/-- The raw USD candle pipeline of `getBtcCandlesForTimeWindow`, one case per
`switch` branch: the window's granularity and lookback, the aggregation for
`24h` (factor 2), `30d` (factor 2) and `1y` (factor 30), and the two
stitched requests of `1y` (365 days ago to 180 days ago, then 180 days ago
to now, concatenated in that call order).  Returns the USD candles, the
conversion start date, and the issued candle requests. -/
def buildUsdCandles (cbo : CbOracle) (now : Int) (timeWindow : String) :
    Except WindowError (List Candle × Int) × List CandleReq :=
  if timeWindow = "1h" then
    match getBtcCandles cbo "USD" 300 (some (now - 3600000)) (some now) with
    | (.error e, tr) => (.error (.upstream e), tr)
    | (.ok cs, tr) => (.ok (cs, now - 3600000), tr)
  else if timeWindow = "24h" then
    match getBtcCandles cbo "USD" 3600 (some (now - 24 * 3600000)) (some now) with
    | (.error e, tr) => (.error (.upstream e), tr)
    | (.ok hourlyCandles, tr) => (.ok (aggregateCandles hourlyCandles 2, now - 24 * 3600000), tr)
  else if timeWindow = "7d" then
    match getBtcCandles cbo "USD" 86400 (some (now - 7 * dayMs)) (some now) with
    | (.error e, tr) => (.error (.upstream e), tr)
    | (.ok cs, tr) => (.ok (cs, now - 7 * dayMs), tr)
  else if timeWindow = "30d" then
    match getBtcCandles cbo "USD" 86400 (some (now - 30 * dayMs)) (some now) with
    | (.error e, tr) => (.error (.upstream e), tr)
    | (.ok dailyCandles30d, tr) => (.ok (aggregateCandles dailyCandles30d 2, now - 30 * dayMs), tr)
  else if timeWindow = "1y" then
    match getBtcCandles cbo "USD" 86400 (some (now - 365 * dayMs)) (some (now - 180 * dayMs)) with
    | (.error e, tr1) => (.error (.upstream e), tr1)
    | (.ok firstHalf, tr1) =>
      match getBtcCandles cbo "USD" 86400 (some (now - 180 * dayMs)) (some now) with
      | (.error e, tr2) => (.error (.upstream e), tr1 ++ tr2)
      | (.ok secondHalf, tr2) =>
        (.ok (aggregateCandles (firstHalf ++ secondHalf) 30, now - 365 * dayMs), tr1 ++ tr2)
  else (.error (.unsupportedWindow timeWindow), [])

/-- The source's `getBtcCandlesForTimeWindow(currency, timeWindow)`: build
the USD candles per the window plan, return them unmodified when the
currency is USD (case-insensitively), and otherwise convert them through
`convertCandlesFromUsd` over the window's date range.  Returns the result,
the candle requests, and the FX requests. -/
def getBtcCandlesForTimeWindow (cbo : CbOracle) (fxo : FxOracle) (now : Int)
    (currency timeWindow : String) :
    Except WindowError (List Candle) × List CandleReq × List FetchReq :=
  match buildUsdCandles cbo now timeWindow with
  | (.error e, ctr) => (.error e, ctr, [])
  | (.ok (usdCandles, start), ctr) =>
    if jsToUpper currency = "USD" then (.ok usdCandles, ctr, [])
    else
      match convertCandlesFromUsd fxo now usdCandles currency start now with
      | (.error e, ftr) => (.error (.conversion e), ctr, ftr)
      | (.ok converted, ftr) => (.ok converted, ctr, ftr)

/-! Spot price resolver (`getBtcSpotPrice` of `src/services/coinbaseApi.js`) -/

/-- The spot endpoint's response for `BTC-USD`: a non-OK HTTP response, a
body without `data.amount`, or the parsed USD amount. -/
inductive SpotResponse where
  | httpError
  | invalidFormat
  | amount (usd : ℚ)
deriving DecidableEq, Repr

/-- The `Error`s surfaced by `getBtcSpotPrice`. -/
inductive SpotError where
  | httpFail
  | invalidFormat
  | ecb (e : EcbError)
  | noRate
deriving DecidableEq, Repr

/-- The object `getBtcSpotPrice` resolves to (the `base: BTC` constant and
the wall-clock timestamp string are omitted). -/
structure SpotResult where
  amount : ℚ
  currency : String
deriving DecidableEq, Repr

/-- The source's `getBtcSpotPrice(currency)`: the `BTC-USD` spot price is
fetched exactly once, before any branching (the returned counter is the
number of spot fetches issued).  USD returns the amount verbatim; any other
currency multiplies by `ecbApi.getLatestRate('USD', currency)`, throwing
when that rate is falsy or when the lookup throws. -/
def getBtcSpotPrice (spot : SpotResponse) (fxo : FxOracle) (today : Int) (currency : String) :
    Except SpotError SpotResult × ℕ × List FetchReq :=
  match spot with
  | .httpError => (.error .httpFail, 1, [])
  | .invalidFormat => (.error .invalidFormat, 1, [])
  | .amount usdAmount =>
    if jsToUpper currency = "USD" then (.ok ⟨usdAmount, "USD"⟩, 1, [])
    else
      match getLatestRate fxo today "USD" currency with
      | (.error e, tr) => (.error (.ecb e), 1, tr)
      | (.ok exchangeRate, tr) =>
        if exchangeRate = 0 then (.error .noRate, 1, tr)
        else (.ok ⟨usdAmount * exchangeRate, jsToUpper currency⟩, 1, tr)

/-! Market-data cache (`fetchMarketData` closure of `App.jsx`) -/

/-- The three change percentages the app tracks (`1h`, `24h`, `7d`); `null`s
are `none`. -/
structure Changes where
  h1 : Option ℚ
  h24 : Option ℚ
  d7 : Option ℚ
deriving DecidableEq, Repr

/-- The result of `coinloreApi.getBtcMarketData` as `fetchMarketData` uses
it. -/
structure MarketData where
  marketCap : Option ℚ
  volume24h : Option ℚ
  change24h : Option ℚ
deriving DecidableEq, Repr

/-- One entry of the `coinloreCache` ref: the cached market data, changes,
and the `Date.now()` at which it was stored. -/
structure CacheEntry where
  marketCap : Option ℚ
  volume24h : Option ℚ
  changes : Changes
  timestamp : Int
deriving DecidableEq, Repr

/-- The `coinloreCache.current` map, keyed by `market_{currency}`. -/
def CacheMap : Type := String → Option CacheEntry

/-- The slice of React state `fetchMarketData` writes: `marketCap`,
`volume24h`, `changes`, and the `loadingMarketData` flag. -/
structure UiState where
  marketCap : Option ℚ
  volume24h : Option ℚ
  changes : Changes
  loading : Bool
deriving DecidableEq, Repr

/-- `COINLORE_CACHE_DURATION`: 30 minutes in milliseconds. -/
def cacheDuration : Int := 1800000

/-- The `fetchMarketData(useCache)` closure of `App.jsx`.  Inputs: the cache
and UI state at entry, `Date.now()`, the currency, and the outcomes of the
two awaited CoinLore calls (`getBtcMarketData`, then `getBtcPriceChanges`).
Output: `Except` captures whether the async function rejects (its `catch`
swallows every fetch error, so every path is `.ok`), carrying the new UI
state, the new cache, and how many CoinLore calls were made.  A fresh cache
hit (when `useCache` holds) serves the entry with no call; a fetch failure
serves the entry read at entry time even when it is expired, or, with no
entry, resets the change fields to `null` and completes normally. -/
def fetchMarketData (useCache : Bool) (cache : CacheMap) (st : UiState) (now : Int)
    (currency : String) (md : Except Unit MarketData) (pc : Except Unit Changes) :
    Except Unit (UiState × CacheMap × ℕ) :=
  let cacheKey := "market_" ++ jsToLower currency
  let cached := cache cacheKey
  match cached with
  | some entry =>
    if useCache ∧ now - entry.timestamp < cacheDuration then
      .ok (⟨entry.marketCap, entry.volume24h, entry.changes, false⟩, cache, 0)
    else
      match md with
      | .error _ => .ok (⟨entry.marketCap, entry.volume24h, entry.changes, false⟩, cache, 1)
      | .ok marketData =>
        match pc with
        | .error _ => .ok (⟨entry.marketCap, entry.volume24h, entry.changes, false⟩, cache, 2)
        | .ok priceChanges =>
          let newChanges : Changes :=
            ⟨priceChanges.h1,
             match marketData.change24h with
             | some v => some v
             | none => priceChanges.h24,
             priceChanges.d7⟩
          let newEntry : CacheEntry :=
            ⟨marketData.marketCap, marketData.volume24h, newChanges, now⟩
          .ok (⟨marketData.marketCap, marketData.volume24h, newChanges, false⟩,
            fun k => if k = cacheKey then some newEntry else cache k, 2)
  | none =>
    match md with
    | .error _ => .ok (⟨st.marketCap, st.volume24h, ⟨none, none, none⟩, false⟩, cache, 1)
    | .ok marketData =>
      match pc with
      | .error _ => .ok (⟨st.marketCap, st.volume24h, ⟨none, none, none⟩, false⟩, cache, 2)
      | .ok priceChanges =>
        let newChanges : Changes :=
          ⟨priceChanges.h1,
           match marketData.change24h with
           | some v => some v
           | none => priceChanges.h24,
           priceChanges.d7⟩
        let newEntry : CacheEntry :=
          ⟨marketData.marketCap, marketData.volume24h, newChanges, now⟩
        .ok (⟨marketData.marketCap, marketData.volume24h, newChanges, false⟩,
          fun k => if k = cacheKey then some newEntry else cache k, 2)

/-! Helper lemmas about the folds of `mergeGroup` -/

lemma foldl_min_le_init (f : Candle → ℚ) (l : List Candle) : ∀ a : ℚ,
    l.foldl (fun acc c => min acc (f c)) a ≤ a := by
  induction l with
  | nil => intro a; simp
  | cons c cs ih =>
    intro a
    simpa using le_trans (ih (min a (f c))) (min_le_left _ _)

lemma foldl_min_le_mem (f : Candle → ℚ) (l : List Candle) : ∀ (a : ℚ) (x : Candle),
    x ∈ l → l.foldl (fun acc c => min acc (f c)) a ≤ f x := by
  induction l with
  | nil => intro a x hx; cases hx
  | cons c cs ih =>
    intro a x hx
    rcases List.mem_cons.mp hx with h | h
    · subst h
      simpa using le_trans (foldl_min_le_init f cs (min a (f x))) (min_le_right _ _)
    · simpa using ih (min a (f c)) x h

lemma init_le_foldl_max (f : Candle → ℚ) (l : List Candle) : ∀ a : ℚ,
    a ≤ l.foldl (fun acc c => max acc (f c)) a := by
  induction l with
  | nil => intro a; simp
  | cons c cs ih =>
    intro a
    simpa using le_trans (le_max_left a (f c)) (ih (max a (f c)))

lemma mem_le_foldl_max (f : Candle → ℚ) (l : List Candle) : ∀ (a : ℚ) (x : Candle),
    x ∈ l → f x ≤ l.foldl (fun acc c => max acc (f c)) a := by
  induction l with
  | nil => intro a x hx; cases hx
  | cons c cs ih =>
    intro a x hx
    rcases List.mem_cons.mp hx with h | h
    · subst h
      simpa using le_trans (le_max_right a (f x)) (init_le_foldl_max f cs (max a (f x)))
    · simpa using ih (max a (f c)) x h

lemma foldl_min_mem (f : Candle → ℚ) (l : List Candle) : ∀ a : ℚ,
    l.foldl (fun acc c => min acc (f c)) a ∈ a :: l.map f := by
  induction l with
  | nil => intro a; simp
  | cons c cs ih =>
    intro a
    have h := ih (min a (f c))
    simp only [List.foldl_cons, List.map_cons]
    rcases List.mem_cons.mp h with h1 | h1
    · rcases min_choice a (f c) with hm | hm
      · rw [h1, hm]; exact List.mem_cons_self _ _
      · rw [h1, hm]; exact List.mem_cons_of_mem _ (List.mem_cons_self _ _)
    · exact List.mem_cons_of_mem _ (List.mem_cons_of_mem _ h1)

lemma foldl_max_mem (f : Candle → ℚ) (l : List Candle) : ∀ a : ℚ,
    l.foldl (fun acc c => max acc (f c)) a ∈ a :: l.map f := by
  induction l with
  | nil => intro a; simp
  | cons c cs ih =>
    intro a
    have h := ih (max a (f c))
    simp only [List.foldl_cons, List.map_cons]
    rcases List.mem_cons.mp h with h1 | h1
    · rcases max_choice a (f c) with hm | hm
      · rw [h1, hm]; exact List.mem_cons_self _ _
      · rw [h1, hm]; exact List.mem_cons_of_mem _ (List.mem_cons_self _ _)
    · exact List.mem_cons_of_mem _ (List.mem_cons_of_mem _ h1)

lemma foldl_add_volume (l : List Candle) : ∀ a : ℚ,
    l.foldl (fun acc c => acc + c.volume) a = a + (l.map (fun c => c.volume)).sum := by
  induction l with
  | nil => intro a; simp
  | cons c cs ih =>
    intro a
    simp only [List.foldl_cons, List.map_cons, List.sum_cons]
    rw [ih (a + c.volume)]
    ring

lemma lastOr_mem (l : List Candle) : ∀ d : Candle, lastOr l d ∈ d :: l := by
  induction l with
  | nil => intro d; simp [lastOr]
  | cons c cs ih =>
    intro d
    rw [lastOr]
    exact List.mem_cons_of_mem _ (ih c)

lemma getLast_cons_eq_lastOr (l : List Candle) : ∀ (c : Candle) (h : c :: l ≠ []),
    (c :: l).getLast h = lastOr l c := by
  induction l with
  | nil => intro c h; simp [lastOr, List.getLast]
  | cons a as ih =>
    intro c h
    rw [List.getLast_cons (List.cons_ne_nil a as), lastOr]
    exact ih a (List.cons_ne_nil a as)

/-! Structural lemmas about `aggregateCandles` -/

lemma aggregateCandles_nil (k : ℕ) : aggregateCandles [] k = [] := by
  simp [aggregateCandles]

lemma aggregateCandles_cons (c : Candle) (cs : List Candle) (k : ℕ) :
    aggregateCandles (c :: cs) (k + 1)
      = mergeGroup c (cs.take k) :: aggregateCandles (cs.drop k) (k + 1) := by
  rw [aggregateCandles]

lemma aggregateCandles_length (k : ℕ) : ∀ (n : ℕ) (candles : List Candle),
    candles.length = n →
    (aggregateCandles candles (k + 1)).length = (candles.length + k) / (k + 1) := by
  intro n
  induction n using Nat.strong_induction_on with
  | _ n ih =>
    intro candles hlen
    cases candles with
    | nil =>
      rw [aggregateCandles_nil]
      simp [Nat.div_eq_of_lt (Nat.lt_succ_of_le (Nat.le_refl k))]
    | cons c cs =>
      rw [aggregateCandles_cons]
      have hdrop : (cs.drop k).length < n := by
        simp only [List.length_cons] at hlen
        simp only [List.length_drop]
        omega
      rw [List.length_cons, ih (cs.drop k).length hdrop (cs.drop k) rfl]
      simp only [List.length_drop, List.length_cons]
      have h1 : cs.length + 1 + k = cs.length + (k + 1) := by omega
      rw [h1, Nat.add_div_right _ (Nat.succ_pos k)]
      rcases le_or_lt k cs.length with h | h
      · rw [Nat.sub_add_cancel h]
      · have h2 : cs.length - k = 0 := by omega
        rw [h2, Nat.zero_add, Nat.div_eq_of_lt (by omega), Nat.div_eq_of_lt (by omega)]

lemma aggregateCandles_get (k : ℕ) : ∀ (i : ℕ) (candles : List Candle)
    (hi : i < (aggregateCandles candles (k + 1)).length),
    ∃ (c : Candle) (rest : List Candle),
      candles.drop (i * (k + 1)) = c :: rest ∧
      (aggregateCandles candles (k + 1)).get ⟨i, hi⟩ = mergeGroup c (rest.take k) := by
  intro i
  induction i with
  | zero =>
    intro candles hi
    cases candles with
    | nil => rw [aggregateCandles_nil] at hi; cases hi
    | cons c cs =>
      refine ⟨c, cs, by simp, ?_⟩
      have h := aggregateCandles_cons c cs k
      simp [h]
  | succ i ih =>
    intro candles hi
    cases candles with
    | nil => rw [aggregateCandles_nil] at hi; cases hi
    | cons c cs =>
      have hcons := aggregateCandles_cons c cs k
      have hi2 : i < (aggregateCandles (cs.drop k) (k + 1)).length := by
        rw [hcons] at hi
        simpa using hi
      obtain ⟨c2, rest2, hdrop, hget⟩ := ih (cs.drop k) hi2
      refine ⟨c2, rest2, ?_, ?_⟩
      · have harith : (i + 1) * (k + 1) = k + 1 + i * (k + 1) := by ring
        rw [harith, ← List.drop_drop, List.drop_succ_cons]
        exact hdrop
      · have : (aggregateCandles (c :: cs) (k + 1)).get ⟨i + 1, hi⟩
            = (aggregateCandles (cs.drop k) (k + 1)).get ⟨i, hi2⟩ := by
          simp [hcons]
        rw [this, hget]

/-! Claim C1 -/

/-- Modelled from the claim wording (spec §4.2), for comparison with the
source-derived `aggregateCandles`: the output candle of a group has the
first candle's time and open, the last candle's close, the maximum of the
highs (an upper bound that is attained), the minimum of the lows (a lower
bound that is attained), and the sum of the volumes. -/
def SpecMergedCandle (g : List Candle) (out : Candle) : Prop :=
  ∃ hg : g ≠ [],
    out.time = (g.head hg).time ∧
    out.openP = (g.head hg).openP ∧
    out.close = (g.getLast hg).close ∧
    (∀ c ∈ g, out.low ≤ c.low) ∧ out.low ∈ g.map (fun c => c.low) ∧
    (∀ c ∈ g, c.high ≤ out.high) ∧ out.high ∈ g.map (fun c => c.high) ∧
    out.volume = (g.map (fun c => c.volume)).sum

lemma mergeGroup_spec (c : Candle) (rest : List Candle) :
    SpecMergedCandle (c :: rest) (mergeGroup c rest) := by
  refine ⟨List.cons_ne_nil c rest, rfl, rfl, ?_, ?_, ?_, ?_, ?_, ?_⟩
  · rw [getLast_cons_eq_lastOr]
    rfl
  · intro x hx
    rcases List.mem_cons.mp hx with h | h
    · rw [h]
      exact foldl_min_le_init (fun y => y.low) rest c.low
    · exact foldl_min_le_mem (fun y => y.low) rest c.low x h
  · simpa using foldl_min_mem (fun y => y.low) rest c.low
  · intro x hx
    rcases List.mem_cons.mp hx with h | h
    · rw [h]
      exact init_le_foldl_max (fun y => y.high) rest c.high
    · exact mem_le_foldl_max (fun y => y.high) rest c.high x h
  · simpa using foldl_max_mem (fun y => y.high) rest c.high
  · show (c :: rest).foldl (fun acc x => acc + x.volume) 0 = _
    rw [foldl_add_volume]
    simp

/-- C1: for every candle list and every aggregation factor `k ≥ 1`,
`aggregateCandles` turns each group of `k` consecutive candles into one
output candle whose time and open come from the group's first candle, close
from its last, high is the maximum of the highs, low the minimum of the
lows, and volume the sum of the volumes; a trailing partial group still
emits one candle, so the output length is `⌈inputLength / k⌉`. -/
theorem C1_aggregateCandles_merges_groups (candles : List Candle) (k : ℕ) (hk : 1 ≤ k) :
    (aggregateCandles candles k).length = (candles.length + (k - 1)) / k ∧
    ∀ (i : ℕ) (hi : i < (aggregateCandles candles k).length),
      SpecMergedCandle ((candles.drop (i * k)).take k)
        ((aggregateCandles candles k).get ⟨i, hi⟩) := by
  obtain ⟨m, rfl⟩ : ∃ m, k = m + 1 := ⟨k - 1, by omega⟩
  constructor
  · have h := aggregateCandles_length m candles.length candles rfl
    simpa using h
  · intro i hi
    obtain ⟨c, rest, hdrop, hget⟩ := aggregateCandles_get m i candles hi
    have hgroup : (candles.drop (i * (m + 1))).take (m + 1) = c :: rest.take m := by
      rw [hdrop, List.take_succ_cons]
    rw [hget, hgroup]
    exact mergeGroup_spec c (rest.take m)

/-- Witness for C1: the theorem applied to a concrete 3-candle list with
factor 2 (one full group and one trailing partial group). -/
theorem C1_witness :
    1 ≤ 2 ∧
    ((aggregateCandles [⟨0, 1, 5, 2, 3, 10⟩, ⟨60, 2, 6, 3, 4, 20⟩, ⟨120, 3, 7, 4, 5, 30⟩] 2).length
        = (([⟨0, 1, 5, 2, 3, 10⟩, ⟨60, 2, 6, 3, 4, 20⟩, ⟨120, 3, 7, 4, 5, 30⟩] : List Candle).length + (2 - 1)) / 2 ∧
      ∀ (i : ℕ)
        (hi : i < (aggregateCandles [⟨0, 1, 5, 2, 3, 10⟩, ⟨60, 2, 6, 3, 4, 20⟩, ⟨120, 3, 7, 4, 5, 30⟩] 2).length),
        SpecMergedCandle
          ((([⟨0, 1, 5, 2, 3, 10⟩, ⟨60, 2, 6, 3, 4, 20⟩, ⟨120, 3, 7, 4, 5, 30⟩] : List Candle).drop (i * 2)).take 2)
          ((aggregateCandles [⟨0, 1, 5, 2, 3, 10⟩, ⟨60, 2, 6, 3, 4, 20⟩, ⟨120, 3, 7, 4, 5, 30⟩] 2).get ⟨i, hi⟩)) :=
  ⟨by decide,
   C1_aggregateCandles_merges_groups
     [⟨0, 1, 5, 2, 3, 10⟩, ⟨60, 2, 6, 3, 4, 20⟩, ⟨120, 3, 7, 4, 5, 30⟩] 2 (by decide)⟩

/-! Claim C9 -/

/-- The candle shape invariant of spec §3:
`low ≤ min(open, close)` and `high ≥ max(open, close)`. -/
def CandleInv (c : Candle) : Prop :=
  c.low ≤ min c.openP c.close ∧ max c.openP c.close ≤ c.high

instance (c : Candle) : Decidable (CandleInv c) := by
  unfold CandleInv
  infer_instance

lemma mergeGroup_inv (c : Candle) (rest : List Candle) (hc : CandleInv c)
    (hrest : ∀ x ∈ rest, CandleInv x) : CandleInv (mergeGroup c rest) := by
  have hlowInit : (mergeGroup c rest).low ≤ c.low :=
    foldl_min_le_init (fun y => y.low) rest c.low
  have hhighInit : c.high ≤ (mergeGroup c rest).high :=
    init_le_foldl_max (fun y => y.high) rest c.high
  have hinvLast : CandleInv (lastOr rest c) := by
    rcases List.mem_cons.mp (lastOr_mem rest c) with h | h
    · rw [h]; exact hc
    · exact hrest _ h
  have hlowLast : (mergeGroup c rest).low ≤ (lastOr rest c).low := by
    rcases List.mem_cons.mp (lastOr_mem rest c) with h | h
    · rw [h]; exact hlowInit
    · exact foldl_min_le_mem (fun y => y.low) rest c.low _ h
  have hhighLast : (lastOr rest c).high ≤ (mergeGroup c rest).high := by
    rcases List.mem_cons.mp (lastOr_mem rest c) with h | h
    · rw [h]; exact hhighInit
    · exact mem_le_foldl_max (fun y => y.high) rest c.high _ h
  constructor
  · apply le_min
    · exact le_trans hlowInit (le_trans hc.1 (min_le_left _ _))
    · exact le_trans hlowLast (le_trans hinvLast.1 (min_le_right _ _))
  · apply max_le
    · exact le_trans (le_trans (le_max_left _ _) hc.2) hhighInit
    · exact le_trans (le_trans (le_max_right _ _) hinvLast.2) hhighLast

lemma aggregateCandles_inv (k : ℕ) : ∀ (n : ℕ) (candles : List Candle),
    candles.length = n → (∀ c ∈ candles, CandleInv c) →
    ∀ c ∈ aggregateCandles candles (k + 1), CandleInv c := by
  intro n
  induction n using Nat.strong_induction_on with
  | _ n ih =>
    intro candles hlen hinv
    cases candles with
    | nil => rw [aggregateCandles_nil]; intro x hx; cases hx
    | cons c cs =>
      rw [aggregateCandles_cons]
      intro x hx
      rcases List.mem_cons.mp hx with h | h
      · rw [h]
        refine mergeGroup_inv c (cs.take k) (hinv c (List.mem_cons_self _ _)) ?_
        intro y hy
        exact hinv y (List.mem_cons_of_mem _ (List.take_subset k cs hy))
      · have hdroplen : (cs.drop k).length < n := by
          simp only [List.length_cons] at hlen
          simp only [List.length_drop]
          omega
        refine ih (cs.drop k).length hdroplen (cs.drop k) rfl ?_ x h
        intro y hy
        exact hinv y (List.mem_cons_of_mem _ (List.drop_subset k cs hy))

lemma scaleCandle_inv (r : ℚ) (hr : 0 < r) (c : Candle) (hc : CandleInv c) :
    CandleInv (scaleCandle r c) := by
  constructor
  · apply le_min
    · exact mul_le_mul_of_nonneg_right (le_trans hc.1 (min_le_left _ _)) (le_of_lt hr)
    · exact mul_le_mul_of_nonneg_right (le_trans hc.1 (min_le_right _ _)) (le_of_lt hr)
  · apply max_le
    · exact mul_le_mul_of_nonneg_right (le_trans (le_max_left _ _) hc.2) (le_of_lt hr)
    · exact mul_le_mul_of_nonneg_right (le_trans (le_max_right _ _) hc.2) (le_of_lt hr)

lemma convertCandlesFromUsd_ok_scales (fxo : FxOracle) (today : Int)
    (usdCandles : List Candle) (targetCurrency : String) (startDate endDate : Int)
    (out : List Candle) (tr : List FetchReq)
    (h : convertCandlesFromUsd fxo today usdCandles targetCurrency startDate endDate
          = (.ok out, tr)) :
    ∃ r : ℚ, out = usdCandles.map (scaleCandle r) := by
  unfold convertCandlesFromUsd at h
  by_cases hc : usdCandles = []
  · rw [if_pos hc] at h
    refine ⟨1, ?_⟩
    cases h
    simp [hc]
  · rw [if_neg hc] at h
    rcases hres : getExchangeRate fxo today "USD" targetCurrency (some startDate) (some endDate)
      with ⟨res, tr0⟩
    rw [hres] at h
    cases res with
    | error e => cases h
    | ok ecbData =>
      dsimp only at h
      by_cases hrate : ecbData.rate = 0
      · rw [if_pos hrate] at h
        rcases hlatest : getLatestRate fxo today "USD" targetCurrency with ⟨latest, trL⟩
        rw [hlatest] at h
        cases latest with
        | error e => cases h
        | ok latestRate =>
          dsimp only at h
          by_cases hl0 : latestRate = 0
          · rw [if_pos hl0] at h
            cases h
          · rw [if_neg hl0] at h
            cases h
            exact ⟨latestRate, rfl⟩
      · rw [if_neg hrate] at h
        cases h
        exact ⟨ecbData.rate, rfl⟩

/-- C9: when every input candle satisfies `low ≤ min(open, close)` and
`high ≥ max(open, close)`, so does every candle produced by
`aggregateCandles` (any factor `k ≥ 1`) and every candle produced by the
currency conversion scaling with a strictly positive rate; moreover every
successful `convertCandlesFromUsd` output is exactly such a single-rate
scaling of its input. -/
theorem C9_invariant_preserved (candles : List Candle) (k : ℕ) (hk : 1 ≤ k) (r : ℚ)
    (hr : 0 < r) (hinv : ∀ c ∈ candles, CandleInv c) :
    (∀ c ∈ aggregateCandles candles k, CandleInv c) ∧
    (∀ c ∈ candles.map (scaleCandle r), CandleInv c) ∧
    (∀ (fxo : FxOracle) (today : Int) (targetCurrency : String) (startDate endDate : Int)
       (out : List Candle) (tr : List FetchReq),
       convertCandlesFromUsd fxo today candles targetCurrency startDate endDate = (.ok out, tr) →
       ∃ rc : ℚ, out = candles.map (scaleCandle rc)) := by
  obtain ⟨m, rfl⟩ : ∃ m, k = m + 1 := ⟨k - 1, by omega⟩
  refine ⟨aggregateCandles_inv m candles.length candles rfl hinv, ?_, ?_⟩
  · intro c hc
    rcases List.mem_map.mp hc with ⟨x, hx, rfl⟩
    exact scaleCandle_inv r hr x (hinv x hx)
  · intro fxo today targetCurrency startDate endDate out tr h
    exact convertCandlesFromUsd_ok_scales fxo today candles targetCurrency
      startDate endDate out tr h

/-- Witness for C9: the theorem applied to a concrete 2-candle list
satisfying the invariant, factor 2, rate 3/2. -/
theorem C9_witness :
    1 ≤ 2 ∧ (0 : ℚ) < 3 / 2 ∧
    (∀ c ∈ ([⟨0, 1, 5, 2, 3, 10⟩, ⟨60, 2, 6, 4, 3, 20⟩] : List Candle), CandleInv c) ∧
    ((∀ c ∈ aggregateCandles [⟨0, 1, 5, 2, 3, 10⟩, ⟨60, 2, 6, 4, 3, 20⟩] 2, CandleInv c) ∧
     (∀ c ∈ ([⟨0, 1, 5, 2, 3, 10⟩, ⟨60, 2, 6, 4, 3, 20⟩] : List Candle).map (scaleCandle (3 / 2)),
        CandleInv c) ∧
     (∀ (fxo : FxOracle) (today : Int) (targetCurrency : String) (startDate endDate : Int)
        (out : List Candle) (tr : List FetchReq),
        convertCandlesFromUsd fxo today [⟨0, 1, 5, 2, 3, 10⟩, ⟨60, 2, 6, 4, 3, 20⟩]
            targetCurrency startDate endDate = (.ok out, tr) →
        ∃ rc : ℚ, out = ([⟨0, 1, 5, 2, 3, 10⟩, ⟨60, 2, 6, 4, 3, 20⟩] : List Candle).map
          (scaleCandle rc))) :=
  ⟨by decide, by norm_num, by decide,
   C9_invariant_preserved [⟨0, 1, 5, 2, 3, 10⟩, ⟨60, 2, 6, 4, 3, 20⟩] 2 (by decide) (3 / 2)
     (by norm_num) (by decide)⟩

/-! Claim C10 -/

/-- C10: for every currency other than USD (case-insensitively),
`getBtcCandles` rejects the call with an error before issuing any network
request (its request trace is empty); and every request it ever issues is
for the product `BTC-USD`. -/
theorem C10_getBtcCandles_rejects_non_usd :
    (∀ (o : CbOracle) (currency : String) (granularity : Int) (start stop : Option Int),
       jsToUpper currency ≠ "USD" →
       getBtcCandles o currency granularity start stop = (.error .nonUsdCurrency, [])) ∧
    (∀ (o : CbOracle) (currency : String) (granularity : Int) (start stop : Option Int)
       (req : CandleReq), req ∈ (getBtcCandles o currency granularity start stop).2 →
       req.product = "BTC-USD") := by
  constructor
  · intro o currency g s e h
    unfold getBtcCandles
    rw [if_pos h]
  · intro o currency g s e req hreq
    unfold getBtcCandles at hreq
    by_cases h : jsToUpper currency ≠ "USD"
    · rw [if_pos h] at hreq
      cases hreq
    · rw [if_neg h] at hreq
      dsimp only at hreq
      rcases hor : o ⟨"BTC-USD", g, msRange s e⟩ with _ | _ | rows <;>
        rw [hor] at hreq <;> dsimp only at hreq <;>
        rcases List.mem_singleton.mp hreq with rfl <;> rfl

/-- Witness for C10: the theorem's first part applied to the concrete
currency `eur`. -/
theorem C10_witness :
    jsToUpper "eur" ≠ "USD" ∧
    getBtcCandles (fun _ => .rows []) "eur" 3600 none none = (.error .nonUsdCurrency, []) :=
  ⟨by decide,
   C10_getBtcCandles_rejects_non_usd.1 (fun _ => .rows []) "eur" 3600 none none (by decide)⟩

/-! Claim C4 -/

/-- The response shapes the primary ECB query treats as "no data for the
range" (and recovers from via the fallback): an empty body, a missing
`dataSets`, a missing `series`, or zero observations.  A non-OK HTTP
response and invalid JSON are not of this kind. -/
def isEmptyData : FxResponse → Bool
  | .emptyBody => true
  | .noDataSets => true
  | .noSeries => true
  | .observations obs => obs.isEmpty
  | .httpError => false
  | .invalidJson => false

lemma fallback_trace (o : FxOracle) (today : Int) (ccy : String) :
    (getEurToCurrencyRateFallback o today ccy).2 = [⟨ccy, today - 90 * dayMs, today⟩] := by
  unfold getEurToCurrencyRateFallback
  dsimp only
  rcases hor : o ⟨ccy, today - 90 * dayMs, today⟩ with _ | _ | _ | _ | _ | obs
  · rfl
  · rfl
  · rfl
  · rfl
  · rfl
  · dsimp only
    rcases hl : latestObservation obs with _ | v
    · rfl
    · rfl

lemma fallback_empty_error (o : FxOracle) (today : Int) (ccy : String)
    (hfb : isEmptyData (o ⟨ccy, today - 90 * dayMs, today⟩) = true) :
    ∃ err, (getEurToCurrencyRateFallback o today ccy).1 = .error err := by
  unfold getEurToCurrencyRateFallback
  dsimp only
  rcases hor : o ⟨ccy, today - 90 * dayMs, today⟩ with _ | _ | _ | _ | _ | obs <;>
    rw [hor] at hfb
  · simp [isEmptyData] at hfb
  · exact ⟨.fbEmptyResponse, rfl⟩
  · simp [isEmptyData] at hfb
  · exact ⟨.fbInvalidFormat, rfl⟩
  · exact ⟨.fbNoSeries, rfl⟩
  · have hobs : obs = [] := by
      simpa [isEmptyData] using hfb
    subst hobs
    exact ⟨.fbNoObservations, rfl⟩

/-- C4: for every pivot-to-currency query, a response with no data for the
range (empty body, missing series, or zero observations) is retried exactly
once, with the fixed 90-day lookback window, before an error is raised; the
retry itself is never retried (the trace never exceeds two requests); and a
transport failure (non-OK HTTP response) is not retried at all. -/
theorem C4_empty_range_retried_once (o : FxOracle) (today : Int) (ccy : String) (s e : Int) :
    (o ⟨ccy, s, e⟩ = .httpError →
       getEurToCurrencyRate o today ccy s e = (.error .httpFail, [⟨ccy, s, e⟩])) ∧
    (isEmptyData (o ⟨ccy, s, e⟩) = true →
       (getEurToCurrencyRate o today ccy s e).2
         = [⟨ccy, s, e⟩, ⟨ccy, today - 90 * dayMs, today⟩]) ∧
    (isEmptyData (o ⟨ccy, s, e⟩) = true →
       isEmptyData (o ⟨ccy, today - 90 * dayMs, today⟩) = true →
       ∃ err, (getEurToCurrencyRate o today ccy s e).1 = .error err) ∧
    (getEurToCurrencyRate o today ccy s e).2.length ≤ 2 := by
  refine ⟨?_, ?_, ?_, ?_⟩
  · intro h
    unfold getEurToCurrencyRate
    dsimp only
    rw [h]
  · intro h
    unfold getEurToCurrencyRate
    dsimp only
    rcases hor : o ⟨ccy, s, e⟩ with _ | _ | _ | _ | _ | obs <;>
      rw [hor] at h
    · simp [isEmptyData] at h
    · simp [fallback_trace]
    · simp [isEmptyData] at h
    · simp [fallback_trace]
    · simp [fallback_trace]
    · have hobs : obs = [] := by
        simpa [isEmptyData] using h
      subst hobs
      dsimp only
      simp [latestObservation, sortByKey, fallback_trace]
  · intro h hfb
    unfold getEurToCurrencyRate
    dsimp only
    rcases hor : o ⟨ccy, s, e⟩ with _ | _ | _ | _ | _ | obs <;>
      rw [hor] at h
    · simp [isEmptyData] at h
    · dsimp only
      exact fallback_empty_error o today ccy hfb
    · simp [isEmptyData] at h
    · dsimp only
      exact fallback_empty_error o today ccy hfb
    · dsimp only
      exact fallback_empty_error o today ccy hfb
    · have hobs : obs = [] := by
        simpa [isEmptyData] using h
      subst hobs
      dsimp only
      simpa [latestObservation, sortByKey] using fallback_empty_error o today ccy hfb
  · unfold getEurToCurrencyRate
    dsimp only
    rcases hor : o ⟨ccy, s, e⟩ with _ | _ | _ | _ | _ | obs
    · simp
    · simp [fallback_trace]
    · simp
    · simp [fallback_trace]
    · simp [fallback_trace]
    · dsimp only
      rcases hl : latestObservation obs with _ | v
      · simp [fallback_trace]
      · simp

/-- Witness for C4: the theorem's one-retry part applied to a concrete
oracle that answers the primary five-to-six period request with an empty
body and the 90-day fallback request with one observation. -/
theorem C4_witness :
    isEmptyData ((fun r : FetchReq => if r.startP = 5 then FxResponse.emptyBody
        else FxResponse.observations [(0, 155)]) ⟨"JPY", 5, 6⟩) = true ∧
    (getEurToCurrencyRate (fun r : FetchReq => if r.startP = 5 then FxResponse.emptyBody
        else FxResponse.observations [(0, 155)]) 0 "JPY" 5 6).2
      = [⟨"JPY", 5, 6⟩, ⟨"JPY", 0 - 90 * dayMs, 0⟩] :=
  ⟨by decide,
   (C4_empty_range_retried_once (fun r : FetchReq => if r.startP = 5 then FxResponse.emptyBody
       else FxResponse.observations [(0, 155)]) 0 "JPY" 5 6).2.1 (by decide)⟩

/-! Claim C2 -/

/-- Counterexample to C2: `getExchangeRate('USD', 'USD')` is claimed to make
zero network calls, but the source only short-circuits when both currencies
are the pivot EUR; for USD it issues two pivot queries (the same request
twice). -/
theorem C2_counterexample :
    (getExchangeRate (fun _ => FxResponse.observations [(0, 2)]) 0 "USD" "USD" none none).2
      = [⟨"USD", 0 - 30 * dayMs, 0⟩, ⟨"USD", 0 - 30 * dayMs, 0⟩] := by
  rfl

/-- C2 (amended): `getRate(X, X, *)` returns exactly `1.0` with zero network
calls only when X is the pivot currency EUR; for any other X the source
issues the same pivot query twice (so two network calls) and returns the
ratio of the two fetched values, which is `1.0` whenever that (deterministic)
query succeeds with a nonzero value. -/
theorem C2_identity_rate_amended (o : FxOracle) (today : Int) (x : String)
    (d1 d2 : Option Int) :
    (jsToUpper x = "EUR" →
       getExchangeRate o today x x d1 d2
         = (.ok ⟨1, d2.getD today, "EUR", "EUR"⟩, [])) ∧
    (jsToUpper x ≠ "EUR" →
       ∀ (v : ℚ) (tr : List FetchReq),
         getEurToCurrencyRate o today (jsToUpper x)
             (d1.getD (today - 30 * dayMs)) (d2.getD today) = (.ok v, tr) →
         v ≠ 0 →
         getExchangeRate o today x x d1 d2
           = (.ok ⟨1, d2.getD today, jsToUpper x, jsToUpper x⟩, tr ++ tr)) := by
  constructor
  · intro h
    unfold getExchangeRate
    dsimp only
    rw [h]
    simp
  · intro h v tr hv hv0
    unfold getExchangeRate
    dsimp only
    rw [if_neg (fun hc => h hc.1), if_neg h, if_neg h, hv]
    dsimp only
    rw [div_self hv0]

/-- Witness for the amended C2: the non-pivot branch at the concrete
currency SEK with an oracle answering every query with the value 3. -/
theorem C2_witness :
    jsToUpper "SEK" ≠ "EUR" ∧
    getEurToCurrencyRate (fun _ => FxResponse.observations [(0, 3)]) 0 (jsToUpper "SEK")
        ((none : Option Int).getD (0 - 30 * dayMs)) ((none : Option Int).getD 0)
      = (.ok 3, [⟨"SEK", 0 - 30 * dayMs, 0⟩]) ∧
    (3 : ℚ) ≠ 0 ∧
    getExchangeRate (fun _ => FxResponse.observations [(0, 3)]) 0 "SEK" "SEK" none none
      = (.ok ⟨1, (none : Option Int).getD 0, jsToUpper "SEK", jsToUpper "SEK"⟩,
         [⟨"SEK", 0 - 30 * dayMs, 0⟩] ++ [⟨"SEK", 0 - 30 * dayMs, 0⟩]) :=
  ⟨by decide, by rfl, by decide,
   (C2_identity_rate_amended (fun _ => FxResponse.observations [(0, 3)]) 0 "SEK" none none).2
     (by decide) 3 [⟨"SEK", 0 - 30 * dayMs, 0⟩] (by rfl) (by decide)⟩

/-! Claim C3 -/

/-- Counterexample to C3: with the FX source publishing the observation `0`
for the pivot-relative USD rate, `getExchangeRate('USD', 'EUR')` does not
reject the zero rate with a `NoDataError`: it divides by it and returns a
successful result whose rate is Infinity. -/
theorem C3_counterexample :
    (getExchangeRateJs (fun _ => FxResponse.observations [(0, 0)]) 0 "USD" "EUR" none none).1
      = .ok ⟨JsNum.inf, 0, "USD", "EUR"⟩ := by
  rfl

/-- C3 (amended): no zero/non-finite check exists in the source.  A
pivot-relative rate of exactly `0` fetched for the base currency is accepted
and used as a divisor, and when the target is the pivot the call returns the
resulting Infinity as a successful rate instead of raising `NoDataError`. -/
theorem C3_zero_rate_not_rejected (o : FxOracle) (today : Int) (base : String)
    (d1 d2 : Option Int) (tr : List FetchReq)
    (hbase : jsToUpper base ≠ "EUR")
    (hq : getEurToCurrencyRate o today (jsToUpper base)
            (d1.getD (today - 30 * dayMs)) (d2.getD today) = (.ok 0, tr)) :
    getExchangeRateJs o today base "EUR" d1 d2
      = (.ok ⟨.inf, d2.getD today, jsToUpper base, "EUR"⟩, tr) := by
  unfold getExchangeRateJs
  dsimp only
  rw [if_neg (fun hc => hbase hc.1), if_neg hbase, if_pos (by decide : jsToUpper "EUR" = "EUR"),
    hq]
  have heur : jsToUpper "EUR" = "EUR" := by decide
  dsimp only
  rw [heur]
  norm_num [jsDiv]

/-- Witness for the amended C3: the concrete zero-observation oracle, base
USD, target EUR; the returned rate is Infinity inside a successful result. -/
theorem C3_witness :
    jsToUpper "USD" ≠ "EUR" ∧
    getEurToCurrencyRate (fun _ => FxResponse.observations [(0, 0)]) 0 (jsToUpper "USD")
        ((none : Option Int).getD (0 - 30 * dayMs)) ((none : Option Int).getD 0)
      = (.ok 0, [⟨"USD", 0 - 30 * dayMs, 0⟩]) ∧
    getExchangeRateJs (fun _ => FxResponse.observations [(0, 0)]) 0 "USD" "EUR" none none
      = (.ok ⟨.inf, (none : Option Int).getD 0, jsToUpper "USD", "EUR"⟩,
         [⟨"USD", 0 - 30 * dayMs, 0⟩]) :=
  ⟨by decide, by rfl,
   C3_zero_rate_not_rejected (fun _ => FxResponse.observations [(0, 0)]) 0 "USD" none none
     [⟨"USD", 0 - 30 * dayMs, 0⟩] (by decide) (by rfl)⟩

/-! Claim C7 -/

/-- C7: `getBtcSpotPrice(currency)` always performs exactly one USD
spot-price fetch; with the fetched USD amount, a USD request returns the
amount verbatim, any other currency returns the amount multiplied by
`getLatestRate('USD', currency)`, and a conversion failure (the rate lookup
throwing, or a falsy rate) is surfaced as an error. -/
theorem C7_spot_price (spot : SpotResponse) (fxo : FxOracle) (today : Int)
    (currency : String) :
    (getBtcSpotPrice spot fxo today currency).2.1 = 1 ∧
    (∀ usd : ℚ, spot = .amount usd → jsToUpper currency = "USD" →
       (getBtcSpotPrice spot fxo today currency).1 = .ok ⟨usd, "USD"⟩) ∧
    (∀ (usd r : ℚ) (tr : List FetchReq), spot = .amount usd →
       jsToUpper currency ≠ "USD" →
       getLatestRate fxo today "USD" currency = (.ok r, tr) → r ≠ 0 →
       (getBtcSpotPrice spot fxo today currency).1
         = .ok ⟨usd * r, jsToUpper currency⟩) ∧
    (∀ (usd : ℚ) (er : EcbError) (tr : List FetchReq), spot = .amount usd →
       jsToUpper currency ≠ "USD" →
       getLatestRate fxo today "USD" currency = (.error er, tr) →
       (getBtcSpotPrice spot fxo today currency).1 = .error (.ecb er)) := by
  refine ⟨?_, ?_, ?_, ?_⟩
  · cases spot with
    | httpError => rfl
    | invalidFormat => rfl
    | amount usd =>
      unfold getBtcSpotPrice
      dsimp only
      by_cases h : jsToUpper currency = "USD"
      · rw [if_pos h]
      · rw [if_neg h]
        rcases hl : getLatestRate fxo today "USD" currency with ⟨res, tr⟩
        cases res with
        | error e => rfl
        | ok r =>
          dsimp only
          by_cases hr : r = 0
          · rw [if_pos hr]
          · rw [if_neg hr]
  · intro usd hspot h
    subst hspot
    unfold getBtcSpotPrice
    dsimp only
    rw [if_pos h]
  · intro usd r tr hspot h hl hr
    subst hspot
    unfold getBtcSpotPrice
    dsimp only
    rw [if_neg h, hl]
    dsimp only
    rw [if_neg hr]
  · intro usd er tr hspot h hl
    subst hspot
    unfold getBtcSpotPrice
    dsimp only
    rw [if_neg h, hl]

/-- Witness for C7: spot amount 65000, an oracle whose pivot observation for
USD is `100/93`, so `getLatestRate('USD', 'EUR')` is `1 / (100/93) = 0.93`
and the converted spot price is `65000 * 0.93 = 60450` — the spec's worked
example. -/
theorem C7_witness :
    jsToUpper "EUR" ≠ "USD" ∧
    getLatestRate (fun _ => FxResponse.observations [(0, (100 : ℚ) / 93)]) 0 "USD" "EUR"
      = (.ok (1 / ((100 : ℚ) / 93)), [⟨"USD", 0 - 30 * dayMs, 0⟩]) ∧
    (1 / ((100 : ℚ) / 93)) ≠ 0 ∧
    (getBtcSpotPrice (.amount 65000) (fun _ => FxResponse.observations [(0, (100 : ℚ) / 93)])
        0 "EUR").1
      = .ok ⟨65000 * (1 / ((100 : ℚ) / 93)), jsToUpper "EUR"⟩ ∧
    (65000 : ℚ) * (1 / ((100 : ℚ) / 93)) = 60450 :=
  ⟨by decide, by rfl, by norm_num,
   (C7_spot_price (.amount 65000) (fun _ => FxResponse.observations [(0, (100 : ℚ) / 93)])
       0 "EUR").2.2.1 65000 (1 / ((100 : ℚ) / 93)) [⟨"USD", 0 - 30 * dayMs, 0⟩] rfl
     (by decide) (by rfl) (by norm_num),
   by norm_num⟩

/-! Claim C6 -/

lemma getBtcCandles_usd_rows (o : CbOracle) (g : Int) (s e : Option Int) (rows : List CbRow)
    (h : o ⟨"BTC-USD", g, msRange s e⟩ = .rows rows) :
    getBtcCandles o "USD" g s e = (.ok (parseRows rows), [⟨"BTC-USD", g, msRange s e⟩]) := by
  unfold getBtcCandles
  rw [if_neg (by decide : ¬jsToUpper "USD" ≠ "USD")]
  dsimp only
  rw [h]

lemma buildUsdCandles_1y (cbo : CbOracle) (now : Int) (rows1 rows2 : List CbRow)
    (h1 : cbo ⟨"BTC-USD", 86400, msRange (some (now - 365 * dayMs)) (some (now - 180 * dayMs))⟩
            = .rows rows1)
    (h2 : cbo ⟨"BTC-USD", 86400, msRange (some (now - 180 * dayMs)) (some now)⟩ = .rows rows2) :
    buildUsdCandles cbo now "1y"
      = (.ok (aggregateCandles (parseRows rows1 ++ parseRows rows2) 30, now - 365 * dayMs),
         [⟨"BTC-USD", 86400, msRange (some (now - 365 * dayMs)) (some (now - 180 * dayMs))⟩,
          ⟨"BTC-USD", 86400, msRange (some (now - 180 * dayMs)) (some now)⟩]) := by
  unfold buildUsdCandles
  rw [if_neg (by decide : ¬("1y" : String) = "1h"), if_neg (by decide : ¬("1y" : String) = "24h"),
    if_neg (by decide : ¬("1y" : String) = "7d"), if_neg (by decide : ¬("1y" : String) = "30d"),
    if_pos (rfl : ("1y" : String) = "1y")]
  rw [getBtcCandles_usd_rows cbo 86400 (some (now - 365 * dayMs)) (some (now - 180 * dayMs))
      rows1 h1]
  dsimp only
  rw [getBtcCandles_usd_rows cbo 86400 (some (now - 180 * dayMs)) (some now) rows2 h2]
  rfl

/-- C6: for the `1y` window, when both stitched fetches succeed, exactly two
upstream candle requests are issued — the older 185-day block
(365 days ago to 180 days ago) first, then the newer 180-day block
(180 days ago to now) — their parsed results are concatenated in that call
order and aggregated with factor 30; for USD the result is exactly that
aggregation, and any successful result (any currency) has length
`⌈totalRawCount / 30⌉`. -/
theorem C6_one_year_two_requests (cbo : CbOracle) (fxo : FxOracle) (now : Int)
    (currency : String) (rows1 rows2 : List CbRow)
    (h1 : cbo ⟨"BTC-USD", 86400, msRange (some (now - 365 * dayMs)) (some (now - 180 * dayMs))⟩
            = .rows rows1)
    (h2 : cbo ⟨"BTC-USD", 86400, msRange (some (now - 180 * dayMs)) (some now)⟩ = .rows rows2) :
    (getBtcCandlesForTimeWindow cbo fxo now currency "1y").2.1
      = [⟨"BTC-USD", 86400, msRange (some (now - 365 * dayMs)) (some (now - 180 * dayMs))⟩,
         ⟨"BTC-USD", 86400, msRange (some (now - 180 * dayMs)) (some now)⟩] ∧
    (jsToUpper currency = "USD" →
       (getBtcCandlesForTimeWindow cbo fxo now currency "1y").1
         = .ok (aggregateCandles (parseRows rows1 ++ parseRows rows2) 30)) ∧
    (∀ out, (getBtcCandlesForTimeWindow cbo fxo now currency "1y").1 = .ok out →
       out.length = ((parseRows rows1).length + (parseRows rows2).length + 29) / 30) := by
  have hb := buildUsdCandles_1y cbo now rows1 rows2 h1 h2
  have hagglen : (aggregateCandles (parseRows rows1 ++ parseRows rows2) 30).length
      = ((parseRows rows1).length + (parseRows rows2).length + 29) / 30 := by
    have h := aggregateCandles_length 29 (parseRows rows1 ++ parseRows rows2).length
      (parseRows rows1 ++ parseRows rows2) rfl
    rw [List.length_append] at h
    exact h
  refine ⟨?_, ?_, ?_⟩
  · unfold getBtcCandlesForTimeWindow
    rw [hb]
    dsimp only
    by_cases hc : jsToUpper currency = "USD"
    · rw [if_pos hc]
    · rw [if_neg hc]
      rcases hcv : convertCandlesFromUsd fxo now
          (aggregateCandles (parseRows rows1 ++ parseRows rows2) 30) currency
          (now - 365 * dayMs) now with ⟨cres, ftr⟩
      cases cres <;> rfl
  · intro hc
    unfold getBtcCandlesForTimeWindow
    rw [hb]
    dsimp only
    rw [if_pos hc]
  · intro out hout
    unfold getBtcCandlesForTimeWindow at hout
    rw [hb] at hout
    dsimp only at hout
    by_cases hc : jsToUpper currency = "USD"
    · rw [if_pos hc] at hout
      cases hout
      exact hagglen
    · rw [if_neg hc] at hout
      rcases hcv : convertCandlesFromUsd fxo now
          (aggregateCandles (parseRows rows1 ++ parseRows rows2) 30) currency
          (now - 365 * dayMs) now with ⟨cres, ftr⟩
      rw [hcv] at hout
      cases cres with
      | error e => cases hout
      | ok converted =>
        dsimp only at hout
        cases hout
        obtain ⟨r, hr⟩ := convertCandlesFromUsd_ok_scales fxo now
          (aggregateCandles (parseRows rows1 ++ parseRows rows2) 30) currency
          (now - 365 * dayMs) now out ftr hcv
        rw [hr, List.length_map]
        exact hagglen

/-- Witness for C6: a concrete oracle answering both stitched requests with
one well-formed row; the two requests appear in call order and the USD
result is the factor-30 aggregation of the concatenation. -/
theorem C6_witness :
    ((fun _ : CandleReq => CbResponse.rows [CbRow.valid 1 1 2 1 2 5])
        ⟨"BTC-USD", 86400, msRange (some (0 - 365 * dayMs)) (some (0 - 180 * dayMs))⟩
      = .rows [CbRow.valid 1 1 2 1 2 5]) ∧
    ((fun _ : CandleReq => CbResponse.rows [CbRow.valid 1 1 2 1 2 5])
        ⟨"BTC-USD", 86400, msRange (some (0 - 180 * dayMs)) (some 0)⟩
      = .rows [CbRow.valid 1 1 2 1 2 5]) ∧
    (getBtcCandlesForTimeWindow (fun _ => CbResponse.rows [CbRow.valid 1 1 2 1 2 5])
        (fun _ => FxResponse.observations [(0, 1)]) 0 "USD" "1y").2.1
      = [⟨"BTC-USD", 86400, msRange (some (0 - 365 * dayMs)) (some (0 - 180 * dayMs))⟩,
         ⟨"BTC-USD", 86400, msRange (some (0 - 180 * dayMs)) (some 0)⟩] :=
  ⟨rfl, rfl,
   (C6_one_year_two_requests (fun _ => CbResponse.rows [CbRow.valid 1 1 2 1 2 5])
       (fun _ => FxResponse.observations [(0, 1)]) 0 "USD"
       [CbRow.valid 1 1 2 1 2 5] [CbRow.valid 1 1 2 1 2 5] rfl rfl).1⟩

/-! Claim C5 -/

/-- Counterexample to C5: with the FX source failing at transport level, the
dated lookup of `convertCandlesFromUsd` throws, and the error is rethrown
directly — no undated "latest" retry happens (the trace holds only the one
dated request; the default-dated request a `getLatestRate` retry would issue
is absent). -/
theorem C5_counterexample :
    convertCandlesFromUsd (fun _ => FxResponse.httpError) 1000
        [⟨0, 1, 2, 1, 2, 5⟩] "EUR" 10 20
      = (.error (.ecb .httpFail), [⟨"USD", 10, 20⟩]) ∧
    (⟨"USD", 1000 - 30 * dayMs, 1000⟩ : FetchReq) ∉
      (convertCandlesFromUsd (fun _ => FxResponse.httpError) 1000
        [⟨0, 1, 2, 1, 2, 5⟩] "EUR" 10 20).2 :=
  ⟨by rfl, by decide⟩

/-- C5 (amended): a successful conversion scales every candle by one scalar
rate, and a USD target is returned without any FX request; but the "latest"
retry happens only when the dated lookup RETURNS a falsy (zero) rate — a
dated lookup that throws (transport failure, or no data even after the
90-day fallback) is surfaced directly with no retry; when the retry happens,
its outcome (usable rate, falsy rate, or error) decides the result. -/
theorem C5_latest_retry_only_on_falsy_rate :
    (∀ (fxo : FxOracle) (today : Int) (usdCandles : List Candle) (tc : String) (s e : Int)
       (out : List Candle) (tr : List FetchReq),
       convertCandlesFromUsd fxo today usdCandles tc s e = (.ok out, tr) →
       ∃ r : ℚ, out = usdCandles.map (scaleCandle r)) ∧
    (∀ (fxo : FxOracle) (today : Int) (usdCandles : List Candle) (tc : String) (s e : Int)
       (er : EcbError) (tr : List FetchReq),
       usdCandles ≠ [] →
       getExchangeRate fxo today "USD" tc (some s) (some e) = (.error er, tr) →
       convertCandlesFromUsd fxo today usdCandles tc s e = (.error (.ecb er), tr)) ∧
    (∀ (fxo : FxOracle) (today : Int) (usdCandles : List Candle) (tc : String) (s e : Int)
       (res : RateResult) (tr : List FetchReq),
       usdCandles ≠ [] →
       getExchangeRate fxo today "USD" tc (some s) (some e) = (.ok res, tr) →
       res.rate = 0 →
       (∀ (lr : ℚ) (trL : List FetchReq),
          getLatestRate fxo today "USD" tc = (.ok lr, trL) → lr ≠ 0 →
          convertCandlesFromUsd fxo today usdCandles tc s e
            = (.ok (usdCandles.map (scaleCandle lr)), tr ++ trL)) ∧
       (∀ (lr : ℚ) (trL : List FetchReq),
          getLatestRate fxo today "USD" tc = (.ok lr, trL) → lr = 0 →
          convertCandlesFromUsd fxo today usdCandles tc s e = (.error .noRate, tr ++ trL)) ∧
       (∀ (er : EcbError) (trL : List FetchReq),
          getLatestRate fxo today "USD" tc = (.error er, trL) →
          convertCandlesFromUsd fxo today usdCandles tc s e
            = (.error (.ecb er), tr ++ trL))) ∧
    (∀ (fxo : FxOracle) (today : Int) (usdCandles : List Candle) (tc : String) (s e : Int)
       (res : RateResult) (tr : List FetchReq),
       usdCandles ≠ [] →
       getExchangeRate fxo today "USD" tc (some s) (some e) = (.ok res, tr) →
       res.rate ≠ 0 →
       convertCandlesFromUsd fxo today usdCandles tc s e
         = (.ok (usdCandles.map (scaleCandle res.rate)), tr)) ∧
    (∀ (cbo : CbOracle) (fxo : FxOracle) (now : Int) (tw : String),
       (getBtcCandlesForTimeWindow cbo fxo now "USD" tw).2.2 = []) := by
  refine ⟨?_, ?_, ?_, ?_, ?_⟩
  · intro fxo today usdCandles tc s e out tr h
    exact convertCandlesFromUsd_ok_scales fxo today usdCandles tc s e out tr h
  · intro fxo today usdCandles tc s e er tr hne hd
    unfold convertCandlesFromUsd
    rw [if_neg hne, hd]
  · intro fxo today usdCandles tc s e res tr hne hd hrate
    refine ⟨?_, ?_, ?_⟩
    · intro lr trL hl hlr
      unfold convertCandlesFromUsd
      rw [if_neg hne, hd]
      dsimp only
      rw [if_pos hrate, hl]
      dsimp only
      rw [if_neg hlr]
    · intro lr trL hl hlr
      unfold convertCandlesFromUsd
      rw [if_neg hne, hd]
      dsimp only
      rw [if_pos hrate, hl]
      dsimp only
      rw [if_pos hlr]
    · intro er trL hl
      unfold convertCandlesFromUsd
      rw [if_neg hne, hd]
      dsimp only
      rw [if_pos hrate, hl]
  · intro fxo today usdCandles tc s e res tr hne hd hrate
    unfold convertCandlesFromUsd
    rw [if_neg hne, hd]
    dsimp only
    rw [if_neg hrate]
  · intro cbo fxo now tw
    unfold getBtcCandlesForTimeWindow
    rcases hb : buildUsdCandles cbo now tw with ⟨bres, ctr⟩
    cases bres with
    | error e => rfl
    | ok p =>
      dsimp only
      rw [if_pos (by decide : jsToUpper "USD" = "USD")]

/-- Witness for the amended C5: a concrete oracle whose dated observation
for SEK is 0 (falsy rate returned, not thrown), so the one "latest" retry
runs, succeeds with rate `4 / 2`, and every candle is scaled by that single
scalar. -/
theorem C5_witness :
    ([⟨0, 1, 2, 1, 2, 5⟩] : List Candle) ≠ [] ∧
    getExchangeRate (fun r : FetchReq => if r.startP = 10 then
          (if r.currency = "SEK" then FxResponse.observations [(0, 0)]
           else FxResponse.observations [(0, 1)])
        else (if r.currency = "SEK" then FxResponse.observations [(0, 4)]
           else FxResponse.observations [(0, 2)])) 0 "USD" "SEK" (some 10) (some 20)
      = (.ok ⟨(0 : ℚ) / 1, 20, "USD", "SEK"⟩, [⟨"USD", 10, 20⟩, ⟨"SEK", 10, 20⟩]) ∧
    ((⟨(0 : ℚ) / 1, 20, "USD", "SEK"⟩ : RateResult).rate = 0) ∧
    getLatestRate (fun r : FetchReq => if r.startP = 10 then
          (if r.currency = "SEK" then FxResponse.observations [(0, 0)]
           else FxResponse.observations [(0, 1)])
        else (if r.currency = "SEK" then FxResponse.observations [(0, 4)]
           else FxResponse.observations [(0, 2)])) 0 "USD" "SEK"
      = (.ok ((4 : ℚ) / 2), [⟨"USD", 0 - 30 * dayMs, 0⟩, ⟨"SEK", 0 - 30 * dayMs, 0⟩]) ∧
    ((4 : ℚ) / 2 ≠ 0) ∧
    convertCandlesFromUsd (fun r : FetchReq => if r.startP = 10 then
          (if r.currency = "SEK" then FxResponse.observations [(0, 0)]
           else FxResponse.observations [(0, 1)])
        else (if r.currency = "SEK" then FxResponse.observations [(0, 4)]
           else FxResponse.observations [(0, 2)])) 0 [⟨0, 1, 2, 1, 2, 5⟩] "SEK" 10 20
      = (.ok (([⟨0, 1, 2, 1, 2, 5⟩] : List Candle).map (scaleCandle ((4 : ℚ) / 2))),
         [⟨"USD", 10, 20⟩, ⟨"SEK", 10, 20⟩]
           ++ [⟨"USD", 0 - 30 * dayMs, 0⟩, ⟨"SEK", 0 - 30 * dayMs, 0⟩]) :=
  ⟨by decide, by rfl, by norm_num, by rfl, by norm_num,
   (C5_latest_retry_only_on_falsy_rate.2.2.1 (fun r : FetchReq => if r.startP = 10 then
          (if r.currency = "SEK" then FxResponse.observations [(0, 0)]
           else FxResponse.observations [(0, 1)])
        else (if r.currency = "SEK" then FxResponse.observations [(0, 4)]
           else FxResponse.observations [(0, 2)])) 0 [⟨0, 1, 2, 1, 2, 5⟩] "SEK" 10 20
       ⟨(0 : ℚ) / 1, 20, "USD", "SEK"⟩ [⟨"USD", 10, 20⟩, ⟨"SEK", 10, 20⟩]
       (by decide) (by rfl) (by norm_num)).1
     ((4 : ℚ) / 2) [⟨"USD", 0 - 30 * dayMs, 0⟩, ⟨"SEK", 0 - 30 * dayMs, 0⟩]
     (by rfl) (by norm_num)⟩

/-! Claim C8 -/

/-- Counterexample to C8: with no prior cache entry and a failing fetch, the
claim says the failure is propagated to the caller, but `fetchMarketData`
catches it, resets the change fields to `null`, and completes normally: the
call resolves (`.ok`), which is not a propagated failure. -/
theorem C8_counterexample :
    fetchMarketData true (fun _ => none) ⟨some 5, some 7, ⟨some 1, some 2, some 3⟩, true⟩
        0 "USD" (.error ()) (.error ())
      = .ok (⟨some 5, some 7, ⟨none, none, none⟩, false⟩, (fun _ => none), 1) := by
  rfl

/-- C8 (amended): a get within the TTL of a prior successful fetch, without
forced refresh, serves the cached value with no upstream call; a failed
refresh with any prior entry (even expired) serves that prior value instead
of an error; but with no prior entry the fetch failure is NOT propagated:
the call completes normally with the change fields reset to `null` and the
cache unchanged. -/
theorem C8_cache_stale_serve (cache : CacheMap) (st : UiState) (now : Int)
    (currency : String) (md : Except Unit MarketData) (pc : Except Unit Changes) :
    (∀ entry : CacheEntry, cache ("market_" ++ jsToLower currency) = some entry →
       now - entry.timestamp < cacheDuration →
       fetchMarketData true cache st now currency md pc
         = .ok (⟨entry.marketCap, entry.volume24h, entry.changes, false⟩, cache, 0)) ∧
    (∀ (entry : CacheEntry) (useCache : Bool),
       cache ("market_" ++ jsToLower currency) = some entry →
       (useCache = false ∨ ¬ now - entry.timestamp < cacheDuration) →
       (md = .error () ∨ pc = .error ()) →
       ∃ n : ℕ, fetchMarketData useCache cache st now currency md pc
         = .ok (⟨entry.marketCap, entry.volume24h, entry.changes, false⟩, cache, n)) ∧
    (∀ useCache : Bool, cache ("market_" ++ jsToLower currency) = none →
       (md = .error () ∨ pc = .error ()) →
       ∃ n : ℕ, fetchMarketData useCache cache st now currency md pc
         = .ok (⟨st.marketCap, st.volume24h, ⟨none, none, none⟩, false⟩, cache, n)) := by
  refine ⟨?_, ?_, ?_⟩
  · intro entry hentry hfresh
    unfold fetchMarketData
    dsimp only
    rw [hentry]
    dsimp only
    rw [if_pos ⟨rfl, hfresh⟩]
  · intro entry useCache hentry hstale hfail
    unfold fetchMarketData
    dsimp only
    rw [hentry]
    dsimp only
    have hcond : ¬ (useCache = true ∧ now - entry.timestamp < cacheDuration) := by
      rcases hstale with h | h
      · intro hc
        rw [h] at hc
        cases hc.1
      · intro hc
        exact h hc.2
    rw [if_neg hcond]
    cases md with
    | error u => exact ⟨1, rfl⟩
    | ok m =>
      cases pc with
      | error u => exact ⟨2, rfl⟩
      | ok p =>
        rcases hfail with h | h
        · cases h
        · cases h
  · intro useCache hnone hfail
    unfold fetchMarketData
    dsimp only
    rw [hnone]
    dsimp only
    cases md with
    | error u => exact ⟨1, rfl⟩
    | ok m =>
      cases pc with
      | error u => exact ⟨2, rfl⟩
      | ok p =>
        rcases hfail with h | h
        · cases h
        · cases h

/-- Witness for the amended C8: a concrete cache holding an expired entry
for `market_usd` and a failing fetch; the expired value is served instead of
an error. -/
theorem C8_witness :
    ((fun k : String => if k = "market_usd" then
        some (⟨some 1, some 2, ⟨none, none, none⟩, -1800000⟩ : CacheEntry) else none)
      ("market_" ++ jsToLower "USD")
      = some (⟨some 1, some 2, ⟨none, none, none⟩, -1800000⟩ : CacheEntry)) ∧
    ((true = false) ∨ ¬ (0 : Int) - (-1800000) < cacheDuration) ∧
    ((.error () : Except Unit MarketData) = .error () ∨
     (.error () : Except Unit Changes) = .error ()) ∧
    ∃ n : ℕ, fetchMarketData true
        (fun k : String => if k = "market_usd" then
          some (⟨some 1, some 2, ⟨none, none, none⟩, -1800000⟩ : CacheEntry) else none)
        ⟨none, none, ⟨none, none, none⟩, true⟩ 0 "USD" (.error ()) (.error ())
      = .ok (⟨some 1, some 2, ⟨none, none, none⟩, false⟩,
             (fun k : String => if k = "market_usd" then
               some (⟨some 1, some 2, ⟨none, none, none⟩, -1800000⟩ : CacheEntry) else none),
             n) :=
  ⟨by rfl, by norm_num [cacheDuration], .inl rfl,
   (C8_cache_stale_serve
       (fun k : String => if k = "market_usd" then
         some (⟨some 1, some 2, ⟨none, none, none⟩, -1800000⟩ : CacheEntry) else none)
       ⟨none, none, ⟨none, none, none⟩, true⟩ 0 "USD" (.error ()) (.error ())).2.1
     ⟨some 1, some 2, ⟨none, none, none⟩, -1800000⟩ true (by rfl)
     (.inr (by norm_num [cacheDuration])) (.inl rfl)⟩
